import Mathlib

/-!
Verification development for the CSE-Smart-Scout repository
(`src/agent.py`, `src/app.py`, `src/cse_tools.py`).

The Python sources are shallowly embedded: each Python function becomes a
Lean definition of the same name; external effects (model invocations, HTTP
requests, the Tavily client) are made explicit as input data (oracles /
outcome values); Python exceptions become `Option`/`Except` results; Python
strings are Lean `String`s with explicit helpers modelling the Python string
operations used by the sources (`lower`, `upper`, `in`, `endswith`).
-/

/- ### Python string-operation models -/

/-- Model of Python `str.lower()` (ASCII case mapping; the sources only
compare ASCII risk terms and tickers). -/
def pyLower (s : String) : String := ⟨s.data.map Char.toLower⟩

/-- Model of Python `str.upper()` (ASCII case mapping). -/
def pyUpper (s : String) : String := ⟨s.data.map Char.toUpper⟩

/-- Model of Python `str.strip()` (whitespace removed at both ends). -/
def pyStrip (s : String) : String :=
  ⟨((s.data.dropWhile Char.isWhitespace).reverse.dropWhile Char.isWhitespace).reverse⟩

/-- Whether `pat` is a prefix of `l` (character lists). -/
def startsWithL : List Char → List Char → Bool
  | [], _ => true
  | _ :: _, [] => false
  | p :: ps, c :: cs => p = c && startsWithL ps cs

/-- Whether `pat` occurs as a contiguous sublist of `l`. -/
def containsL (pat : List Char) : List Char → Bool
  | [] => startsWithL pat []
  | c :: cs => startsWithL pat (c :: cs) || containsL pat cs

/-- Model of the Python substring test `sub in hay`. -/
def pyContains (hay sub : String) : Bool := containsL sub.data hay.data

/-- Model of Python `s.endswith(suffix)`. -/
def pyEndsWith (s suffix : String) : Bool :=
  let n := s.data.length
  let m := suffix.data.length
  decide (m ≤ n) && (s.data.drop (n - m) == suffix.data)

/-- Lexicographic order on character lists by code point
(model of Python string `<`). -/
def strLtL : List Char → List Char → Bool
  | [], [] => false
  | [], _ :: _ => true
  | _ :: _, [] => false
  | c :: cs, d :: ds => if c = d then strLtL cs ds else decide (c.toNat < d.toNat)

/-- Model of the Python string comparison `a < b`. -/
def pyStrLt (a b : String) : Bool := strLtL a.data b.data

/- ### Data model: messages and agent state (`src/agent.py` lines 20-24) -/

/-- Message role: `HumanMessage`, `AIMessage` or `ToolMessage`. -/
inductive Role where
  | human
  | ai
  | tool
deriving DecidableEq, Repr

/-- A tool-call request attached to an `AIMessage`
(name, argument mapping rendered opaquely, correlation id). -/
structure ToolCall where
  tool : String
  args : String
  id : String
deriving DecidableEq, Repr

/-- A LangChain message as used by the sources: role, text content,
optional `name` tag, and the `tool_calls` list of an `AIMessage`. -/
structure Msg where
  role : Role
  content : String
  name : Option String
  tool_calls : List ToolCall
deriving DecidableEq, Repr

/-- The `AgentState` of `src/agent.py` lines 21-24: the message sequence
(merged by `operator.add`, i.e. append), plus `next` and `sender`. -/
structure AgentState where
  messages : List Msg
  next : String
  sender : String
deriving DecidableEq, Repr

/-- A partial state update returned by a graph node: `messages` is appended
(the `operator.add` annotation), `next`/`sender` overwrite when present. -/
structure StateUpdate where
  messages : List Msg
  next : Option String
  sender : Option String
deriving DecidableEq, Repr

/-- LangGraph state merge for `AgentState`: append the `messages`,
overwrite `next` and `sender` when the node's returned dict contains them. -/
def applyUpdate (s : AgentState) (u : StateUpdate) : AgentState :=
  ⟨s.messages ++ u.messages, u.next.getD s.next, u.sender.getD s.sender⟩

/- ### Supervisor (`src/agent.py` lines 76-106) -/

/-- The `Literal` type of `RouteResponse.next` (`src/agent.py` line 77):
pydantic validates the structured output to this closed enumeration. -/
inductive RouteNext where
  | technical_Analyst
  | market_Researcher
  | finish
deriving DecidableEq, Repr

/-- The string carried by each `RouteResponse.next` literal. -/
def RouteNext.toStr : RouteNext → String
  | .technical_Analyst => "Technical_Analyst"
  | .market_Researcher => "Market_Researcher"
  | .finish => "FINISH"

/-- Outcome of `chain.invoke` inside `supervisor_node` (line 101): the call
raises, returns a falsy result (`not result`), returns a result with a falsy
`next` field (`not result.next`), or returns a validated `RouteResponse`. -/
inductive ChainOutcome where
  | raised
  | returnedNone
  | emptyNext
  | ok (next : RouteNext)
deriving DecidableEq, Repr

/-- The routing string `supervisor_node` stores in `state["next"]`
(`src/agent.py` lines 100-106): the validated decision on success, and
`"FINISH"` on an exception, a falsy result, or a falsy `next`. -/
def supervisor_decision : ChainOutcome → String
  | .ok r => r.toStr
  | _ => "FINISH"

/-- Node `supervisor_node` returns the dict `\x7b"next": decision\x7d`. -/
def supervisor_node (oc : ChainOutcome) : StateUpdate :=
  ⟨[], some (supervisor_decision oc), none⟩

/- ### Worker nodes (`src/agent.py` lines 62-72) -/

/-- The name-tagging both worker nodes apply: `result.name = who` when the
model result is an `AIMessage` (lines 64-65 and 70-71). -/
def tagWorker (who : String) (m : Msg) : Msg :=
  if m.role = .ai then ⟨m.role, m.content, some who, m.tool_calls⟩ else m

/-- Node `analyst_node` (lines 62-66): append the (tagged) model result and set
`sender` to `"Technical_Analyst"`. The model invocation result is the
argument. -/
def analyst_node (result : Msg) : StateUpdate :=
  ⟨[tagWorker "Technical_Analyst" result], none, some "Technical_Analyst"⟩

/-- Node `researcher_node` (lines 68-72), analogous to `analyst_node`. -/
def researcher_node (result : Msg) : StateUpdate :=
  ⟨[tagWorker "Market_Researcher" result], none, some "Market_Researcher"⟩

/-- The `ToolNode` (line 138) returns `\x7b"messages": [...]\x7d` with one
`ToolMessage` per tool call; it never touches `next` or `sender`. The
produced tool messages are the argument (library behaviour). -/
def tool_node (tms : List Msg) : StateUpdate := ⟨tms, none, none⟩

/- ### Compliance guardrail (`src/agent.py` lines 109-117) -/

/-- The `risk_terms` list (line 113). -/
def risk_terms : List String := ["buy", "sell", "invest", "guarantee", "profit"]

/-- The fixed disclaimer string (line 115). -/
def disclaimer : String :=
  "\n\n⚠️ **Compliance Notice:** AI-generated analysis. Not financial advice."

/-- Node `compliance_node` (lines 109-117). `messages[-1]` on an empty list would
raise `IndexError`, modelled by `none`. Otherwise: if the last message is an
`AIMessage` with truthy (non-empty) content containing a risk term
case-insensitively, emit one new `AIMessage` with the disclaimer appended;
otherwise emit no message. -/
def compliance_node (s : AgentState) : Option StateUpdate :=
  match s.messages.getLast? with
  | none => none
  | some last_msg =>
    if last_msg.role = .ai ∧ last_msg.content ≠ "" then
      if risk_terms.any (fun term => pyContains (pyLower last_msg.content) term) then
        some ⟨[⟨.ai, last_msg.content ++ disclaimer, none, []⟩], none, none⟩
      else
        some ⟨[], none, none⟩
    else
      some ⟨[], none, none⟩

/- ### Routers (`src/agent.py` lines 120-131) -/

/-- Function `router` (lines 120-121). -/
def router (s : AgentState) : String := s.next

/-- Function `worker_router` (lines 123-128): `"tools"` when the last message's
`tool_calls` list is truthy (non-empty), else `"Supervisor"`. `none` models
the `IndexError`/`AttributeError` on an empty message list. -/
def worker_router (s : AgentState) : Option String :=
  match s.messages.getLast? with
  | none => none
  | some last_message =>
    if ¬ last_message.tool_calls.isEmpty then some "tools" else some "Supervisor"

/-- Function `tool_router` (lines 130-131). -/
def tool_router (s : AgentState) : String := s.sender

/- ### Graph nodes and edges (`src/agent.py` lines 133-159) -/

/-- The five nodes added to the `StateGraph` (lines 135-139). -/
inductive Node where
  | supervisor
  | technical_Analyst
  | market_Researcher
  | tools
  | compliance_Guardrail
deriving DecidableEq, Repr

/-- The edge `START → "Supervisor"` (line 141). -/
def start_edge : Node := .supervisor

/-- The conditional-edge dict attached to `"Supervisor"` (lines 143-147);
`none` models a routing string absent from the dict (a LangGraph error). -/
def supervisor_edges (d : String) : Option Node :=
  if d = "Technical_Analyst" then some .technical_Analyst
  else if d = "Market_Researcher" then some .market_Researcher
  else if d = "FINISH" then some .compliance_Guardrail
  else none

/-- The conditional-edge dict attached to `"Technical_Analyst"` (line 149). -/
def analyst_edges (d : String) : Option Node :=
  if d = "tools" then some .tools
  else if d = "Supervisor" then some .supervisor
  else none

/-- The conditional-edge dict attached to `"Market_Researcher"` (line 150). -/
def researcher_edges (d : String) : Option Node :=
  if d = "tools" then some .tools
  else if d = "Supervisor" then some .supervisor
  else none

/-- The conditional-edge dict attached to `"tools"` (lines 152-155). -/
def tools_edges (d : String) : Option Node :=
  if d = "Technical_Analyst" then some .technical_Analyst
  else if d = "Market_Researcher" then some .market_Researcher
  else none

/-- The unconditional edge `"Compliance_Guardrail" → END` (line 157);
`none` here denotes the `END` pseudo-node. -/
def compliance_guardrail_edge : Option Node := none

/- ### Graph execution -/

/-- The external, per-step inputs of one turn: the supervisor chain outcome,
the worker model result and the tool-execution output at each step index. -/
structure Oracle where
  sup : Nat → ChainOutcome
  work : Nat → Msg
  tool : Nat → List Msg

/-- One node execution followed by its routing: returns the updated state
and the successor (`none` = `END`); the outer `none` models a raised
exception (empty message list) or an unmapped routing string. -/
def graphStep (o : Oracle) (t : Nat) : Node → AgentState → Option (AgentState × Option Node)
  | .supervisor, s =>
    let s' := applyUpdate s (supervisor_node (o.sup t))
    match supervisor_edges (router s') with
    | some n => some (s', some n)
    | none => none
  | .technical_Analyst, s =>
    let s' := applyUpdate s (analyst_node (o.work t))
    match worker_router s' with
    | none => none
    | some r =>
      match analyst_edges r with
      | some n => some (s', some n)
      | none => none
  | .market_Researcher, s =>
    let s' := applyUpdate s (researcher_node (o.work t))
    match worker_router s' with
    | none => none
    | some r =>
      match researcher_edges r with
      | some n => some (s', some n)
      | none => none
  | .tools, s =>
    let s' := applyUpdate s (tool_node (o.tool t))
    match tools_edges (tool_router s') with
    | some n => some (s', some n)
    | none => none
  | .compliance_Guardrail, s =>
    match compliance_node s with
    | none => none
    | some u => some (applyUpdate s u, compliance_guardrail_edge)

/-- Result of running one turn of the compiled graph. `budgetExceeded` is
the `GraphRecursionError` LangGraph raises when the step budget runs out.
Modelled from the spec: the step-limit semantics of the graph executor
(third-party LangGraph, not under `src/`) — the graph bounds total node
transitions and exceeding the bound is a fatal error for the turn. -/
inductive RunResult where
  | finished (trace : List Node) (final : AgentState)
  | budgetExceeded
  | errored
deriving DecidableEq, Repr

/-- Run the graph from node `n`, with `fuel` remaining node executions;
collects the trace of executed nodes. -/
def runGraph (o : Oracle) : Nat → Nat → Node → AgentState → RunResult
  | 0, _, _, _ => .budgetExceeded
  | fuel + 1, t, n, s =>
    match graphStep o t n s with
    | none => .errored
    | some (s', none) => .finished [n] s'
    | some (s', some n') =>
      match runGraph o fuel (t + 1) n' s' with
      | .finished tr f => .finished (n :: tr) f
      | r => r

/-- The configured `recursion_limit` (`src/app.py` line 85). -/
def recursion_limit : Nat := 50

/-- What the Streamlit front end shows for the turn. -/
inductive Display where
  | rendered (content : String)
  | errorBox (msg : String)
deriving DecidableEq, Repr

/-- The front end's outcome handling (`src/app.py` lines 80-121): a finished
turn renders message content (the render loop of lines 88-117, elided here to
the final message's content); any exception from the stream — including the
recursion-limit error — is caught by `except Exception` (line 119) and shown
via `st.error(...)` (line 120). -/
def appRender : RunResult → Display
  | .finished _ f => .rendered (((f.messages.getLast?).map Msg.content).getD "")
  | .budgetExceeded => .errorBox "Agent Logic Error: GraphRecursionError"
  | .errored => .errorBox "Agent Logic Error: exception"

/- ### cse_tools.py: ticker knowledge base and resolution (lines 17-58) -/

/-- The `CSE_TICKER_MAP` dict (`src/cse_tools.py` lines 17-39), in source order. -/
def CSE_TICKER_MAP : List (String × String) :=
  [("john keells", "JKH"),
   ("jkh", "JKH"),
   ("keells", "JKH"),
   ("dialog", "DIAL"),
   ("dialog axiata", "DIAL"),
   ("commercial bank", "COMB"),
   ("comb", "COMB"),
   ("sampath", "SAMP"),
   ("sampath bank", "SAMP"),
   ("hatton", "HNB"),
   ("hnb", "HNB"),
   ("hayleys", "HAYL"),
   ("sri lanka telecom", "SLTL"),
   ("slt", "SLTL"),
   ("lanka ioc", "LIOC"),
   ("lioc", "LIOC"),
   ("melstacorp", "MELS"),
   ("lolc", "LOLC"),
   ("hemas", "HHL"),
   ("access engineering", "AEL"),
   ("softlogic", "SHL")]

/-- Dict lookup: first pair whose key equals `k` (keys are unique). -/
def mapLookup : List (String × String) → String → Option String
  | [], _ => none
  | p :: ps, k => if p.1 == k then some p.2 else mapLookup ps k

/- difflib model. `resolve_ticker` calls
`get_close_matches(clean_input, CSE_TICKER_MAP.keys(), n=1, cutoff=0.6)`
(stdlib `difflib`). The model below reproduces its observable behaviour on
the short ASCII strings involved: `SequenceMatcher.ratio()` is
`2*M/T` where `M` is the total size of the recursively-chosen longest
matching blocks and `T` the sum of lengths; the autojunk heuristic is
inactive below 200 characters; the float comparisons `ratio >= 0.6` and the
tie-breaking of `heapq.nlargest` on `(ratio, string)` tuples are exact for
these sizes, so they are carried out on integers here. -/

/-- Length of the common run at the heads of two character lists. -/
def commonRun : List Char → List Char → Nat
  | a :: as, b :: bs => if a = b then commonRun as bs + 1 else 0
  | _, _ => 0

/-- Longest matching block `(i, j, size)` between `a` and `b`: maximal size,
ties broken by least `i`, then least `j` (as `SequenceMatcher.find_longest_match`
does without junk). -/
def bestBlock (a b : List Char) : Nat × Nat × Nat :=
  (List.range a.length).foldl
    (fun acc i =>
      (List.range b.length).foldl
        (fun acc2 j =>
          let k := commonRun (a.drop i) (b.drop j)
          if k > acc2.2.2 then (i, j, k) else acc2)
        acc)
    (0, 0, 0)

/-- Total size of the matching blocks (`SequenceMatcher.get_matching_blocks`
recursion), with an explicit fuel; the recursion depth is bounded by the
length of `a`, so `a.length + 1` fuel is always enough. -/
def matchTotalFuel : Nat → List Char → List Char → Nat
  | 0, _, _ => 0
  | fuel + 1, a, b =>
    let ijk := bestBlock a b
    let i := ijk.1
    let j := ijk.2.1
    let k := ijk.2.2
    if k = 0 then 0
    else
      matchTotalFuel fuel (a.take i) (b.take j) + k +
        matchTotalFuel fuel (a.drop (i + k)) (b.drop (j + k))

/-- The value `M` in `SequenceMatcher(None, a, b).ratio() = 2*M/(len a + len b)`. -/
def matchTotal (a b : List Char) : Nat := matchTotalFuel (a.length + 1) a b

/-- The filter `ratio() >= cutoff` of `get_close_matches` at `cutoff=0.6`:
`2*M/(|x|+|w|) >= 3/5`, exactly `10*M >= 3*(|x|+|w|)` (the float comparison
agrees with the rational one at these magnitudes). -/
def cutoffOk (x w : List Char) : Bool :=
  decide (3 * (x.length + w.length) ≤ 10 * matchTotal x w)

/-- Does candidate `x` beat the current best `b` for word `w` under
`heapq.nlargest(1, [(ratio, string), ...])`: strictly larger ratio, or equal
ratio and lexicographically larger string. -/
def candBeats (w : List Char) (x b : String) : Bool :=
  let mx := matchTotal x.data w
  let mb := matchTotal b.data w
  let tx := x.data.length + w.length
  let tb := b.data.length + w.length
  decide (mb * tx < mx * tb) || ((mx * tb == mb * tx) && pyStrLt b x)

/-- Select the maximum of the filtered candidates by `(ratio, string)`. -/
def pickBest (w : List Char) : List String → Option String → Option String
  | [], best => best
  | x :: rest, best =>
    match best with
    | none => pickBest w rest (some x)
    | some b => pickBest w rest (if candBeats w x b then some x else some b)

/-- Model of `difflib.get_close_matches(word, possibilities, n=1, cutoff=0.6)`,
returning the single best match when any candidate reaches the cutoff. -/
def get_close_matches1 (word : String) (possibilities : List String) : Option String :=
  pickBest word.data (possibilities.filter (fun x => cutoffOk x.data word.data)) none

/-- Function `resolve_ticker` (`src/cse_tools.py` lines 41-58): exact lookup of the
lowercased, stripped input; else fuzzy match over the map keys at cutoff
0.6 (the dict access `CSE_TICKER_MAP[matches[0]]` would raise `KeyError`
for a key outside the map, modelled by `none`); else the uppercased input. -/
def resolve_ticker (user_input : String) : Option String :=
  let clean_input := pyStrip (pyLower user_input)
  match mapLookup CSE_TICKER_MAP clean_input with
  | some t => some t
  | none =>
    match get_close_matches1 clean_input (CSE_TICKER_MAP.map Prod.fst) with
    | some m => mapLookup CSE_TICKER_MAP m
    | none => some (pyUpper user_input)

/- ### cse_tools.py: capabilities (lines 61-157) -/

/-- The scalar fields of `reqSymbolInfo` used by `get_cse_stock_price`
(numeric JSON scalars kept opaque as strings; their values are irrelevant
to the claims). -/
structure SymbolInfo where
  lastTradedPrice : String
  change : String
  changePercentage : String
deriving DecidableEq, Repr

/-- Outcome of the HTTP interaction inside the `try` block of
`get_cse_stock_price`: the request (or JSON decoding) raised, or a response
arrived with a status code and an optional (falsy-when-absent/empty)
`reqSymbolInfo`. -/
inductive HttpResult where
  | raised
  | resp (status : Nat) (reqSymbolInfo : Option SymbolInfo)
deriving DecidableEq, Repr

/-- A value returned by a tool capability: a live-quote dict, the
mock-data dict, or a plain string. -/
inductive CapResult where
  | quote (symbol lastTradedPrice change changePercentage currency market_status : String)
  | mockData (symbol currency source : String)
  | text (s : String)
deriving DecidableEq, Repr

/-- Whether a capability returned a string value. -/
def CapResult.isText : CapResult → Bool
  | .text _ => true
  | _ => false

/-- Function `_generate_mock_data` (`src/cse_tools.py` lines 119-127); the random
price/change draws are elided, the identifying fields are kept. -/
def generate_mock_data (ticker : String) : CapResult :=
  .mockData (pyUpper ticker) "LKR" "Mock Data (Fallback)"

/-- The queried CSE symbol built by `get_cse_stock_price` (lines 66-76):
resolve the name, append `".N0000"` unless already present, uppercase. -/
def cse_query_symbol (ticker : String) : Option String :=
  (resolve_ticker ticker).map (fun clean_ticker =>
    pyUpper (if pyEndsWith clean_ticker ".N0000" then clean_ticker
             else clean_ticker ++ ".N0000"))

/-- The body of the `try` block of `get_cse_stock_price` (lines 91-113):
a raise from `requests.post`/`.json()`, the `ValueError` on a non-200
status, the `ValueError` on an empty `reqSymbolInfo`, or the success dict
(timestamp elided as environment-dependent). -/
def stock_price_try_body (cse_symbol : String) (h : HttpResult) : Except String CapResult :=
  match h with
  | .raised => .error "request raised"
  | .resp status info =>
    if status ≠ 200 then .error ("Status " ++ toString status)
    else
      match info with
      | none => .error "Symbol data empty"
      | some i =>
        .ok (.quote cse_symbol i.lastTradedPrice i.change i.changePercentage
              "LKR" "Active (CSE Direct)")

/-- Function `get_cse_stock_price` (`src/cse_tools.py` lines 61-117): any exception
in the `try` block falls to `_generate_mock_data(ticker)`; a failure of
`resolve_ticker` itself would escape the `try` block (outer `none`). -/
def get_cse_stock_price (ticker : String) (h : HttpResult) : Option CapResult :=
  match cse_query_symbol ticker with
  | none => none
  | some cse_symbol =>
    some (match stock_price_try_body cse_symbol h with
          | .ok v => v
          | .error _ => generate_mock_data ticker)

/-- Outcome of the Tavily interaction inside `search_market_news`: the
client construction/search raised, or returned a results list of
(title, content) pairs. -/
inductive TavilyOutcome where
  | raised
  | results (rs : List (String × String))
deriving DecidableEq, Repr

/-- Function `search_market_news` (`src/cse_tools.py` lines 129-157): joins the
result lines, or returns the fixed no-results / error strings. -/
def search_market_news (query : String) (o : TavilyOutcome) : CapResult :=
  match o with
  | .raised => .text "News search failed. Please verify API Key."
  | .results rs =>
    if rs.isEmpty then .text "No news found via Tavily."
    else .text (String.intercalate "\n"
      (rs.map (fun result => "- " ++ result.1 ++ ": " ++ result.2)))

/- ### Module surface (for the import in `src/agent.py` line 13) -/

/-- The top-level function names defined by `src/cse_tools.py`. -/
def cse_tools_defined_names : List String :=
  ["resolve_ticker", "get_cse_stock_price", "_generate_mock_data",
   "search_market_news", "get_market_overview"]

/-- The names `src/agent.py` line 13 imports from `cse_tools`. -/
def agent_imported_names : List String :=
  ["get_cse_stock_price", "web_search", "get_technical_indicators"]

/-- The names bound to each worker and to the shared `ToolNode`
(`src/agent.py` lines 41, 53, 138). -/
def analyst_tool_names : List String :=
  ["get_cse_stock_price", "get_technical_indicators"]

/-- The researcher's bound tool names (`src/agent.py` line 53). -/
def researcher_tool_names : List String := ["web_search"]

/-- Whether every imported tool name resolves to a function defined by
`cse_tools.py`. -/
def agent_imports_resolve : Bool :=
  agent_imported_names.all (fun n => cse_tools_defined_names.contains n)

/- ### Concrete data used by witnesses -/

/-- A plain user message. -/
def msgHello : Msg := ⟨.human, "hi", none, []⟩

/-- An oracle whose supervisor chain always raises. -/
def oracleRaise : Oracle := ⟨fun _ => .raised, fun _ => msgHello, fun _ => []⟩

/-- An oracle whose supervisor always answers `FINISH`. -/
def oracleFinish : Oracle := ⟨fun _ => .ok .finish, fun _ => msgHello, fun _ => []⟩

/-- The initial state of a one-message turn. -/
def stateHello : AgentState := ⟨[msgHello], "", ""⟩

/- ### Helper lemmas -/

theorem getLast?_append_one {α : Type} (l : List α) (a : α) :
    (l ++ [a]).getLast? = some a := List.getLast?_concat l

theorem tagWorker_tool_calls (who : String) (m : Msg) :
    (tagWorker who m).tool_calls = m.tool_calls := by
  unfold tagWorker
  split <;> rfl

theorem supervisor_decision_cases (oc : ChainOutcome) :
    supervisor_decision oc = "Technical_Analyst" ∨
    supervisor_decision oc = "Market_Researcher" ∨
    supervisor_decision oc = "FINISH" := by
  cases oc with
  | ok r => cases r <;> simp [supervisor_decision, RouteNext.toStr]
  | raised => right; right; rfl
  | returnedNone => right; right; rfl
  | emptyNext => right; right; rfl

theorem compliance_node_eq (s : AgentState) (m : Msg)
    (h : s.messages.getLast? = some m) :
    compliance_node s =
      (if m.role = Role.ai ∧ m.content ≠ "" then
        if risk_terms.any (fun term => pyContains (pyLower m.content) term) then
          some ⟨[⟨Role.ai, m.content ++ disclaimer, none, []⟩], none, none⟩
        else some ⟨[], none, none⟩
      else some ⟨[], none, none⟩) := by
  unfold compliance_node
  rw [h]

theorem worker_router_eq (s : AgentState) (m : Msg)
    (h : s.messages.getLast? = some m) :
    worker_router s =
      (if ¬ m.tool_calls.isEmpty then some "tools" else some "Supervisor") := by
  unfold worker_router
  rw [h]

theorem compliance_node_no_route (s : AgentState) (u : StateUpdate)
    (h : compliance_node s = some u) : u.next = none ∧ u.sender = none := by
  cases hl : s.messages.getLast? with
  | none =>
    unfold compliance_node at h
    rw [hl] at h
    exact absurd h (by simp)
  | some m =>
    rw [compliance_node_eq s m hl] at h
    split at h
    · split at h <;> (injection h with h; rw [← h]; exact ⟨rfl, rfl⟩)
    · injection h with h; rw [← h]; exact ⟨rfl, rfl⟩

/-- The node the graph visits after the supervisor, as a function of the
chain outcome. -/
def supervisor_target (oc : ChainOutcome) : Node :=
  match oc with
  | .ok .technical_Analyst => .technical_Analyst
  | .ok .market_Researcher => .market_Researcher
  | _ => .compliance_Guardrail

/-- The node the graph visits after a worker, as a function of the worker's
produced message. -/
def worker_target (m : Msg) : Node :=
  if m.tool_calls.isEmpty then .supervisor else .tools

theorem graphStep_supervisor (o : Oracle) (t : Nat) (s : AgentState) :
    graphStep o t .supervisor s =
      some (applyUpdate s (supervisor_node (o.sup t)), some (supervisor_target (o.sup t))) := by
  show (match supervisor_edges (router (applyUpdate s (supervisor_node (o.sup t)))) with
        | some n => some (applyUpdate s (supervisor_node (o.sup t)), some n)
        | none => none) =
      some (applyUpdate s (supervisor_node (o.sup t)), some (supervisor_target (o.sup t)))
  cases o.sup t with
  | ok r => cases r <;> rfl
  | raised => rfl
  | returnedNone => rfl
  | emptyNext => rfl

theorem supervisor_target_guardrail (oc : ChainOutcome)
    (h : supervisor_target oc = Node.compliance_Guardrail) :
    supervisor_decision oc = "FINISH" := by
  cases oc with
  | ok r => cases r with
    | technical_Analyst => exact absurd h (by decide)
    | market_Researcher => exact absurd h (by decide)
    | finish => rfl
  | raised => rfl
  | returnedNone => rfl
  | emptyNext => rfl

theorem graphStep_analyst (o : Oracle) (t : Nat) (s : AgentState) :
    graphStep o t .technical_Analyst s =
      some (applyUpdate s (analyst_node (o.work t)), some (worker_target (o.work t))) := by
  have hwr := worker_router_eq (applyUpdate s (analyst_node (o.work t)))
    (tagWorker "Technical_Analyst" (o.work t)) (getLast?_append_one s.messages _)
  rw [tagWorker_tool_calls] at hwr
  show (match worker_router (applyUpdate s (analyst_node (o.work t))) with
        | none => none
        | some r =>
          match analyst_edges r with
          | some n => some (applyUpdate s (analyst_node (o.work t)), some n)
          | none => none) = _
  rw [hwr]
  unfold worker_target
  cases (o.work t).tool_calls.isEmpty <;> rfl

theorem graphStep_researcher (o : Oracle) (t : Nat) (s : AgentState) :
    graphStep o t .market_Researcher s =
      some (applyUpdate s (researcher_node (o.work t)), some (worker_target (o.work t))) := by
  have hwr := worker_router_eq (applyUpdate s (researcher_node (o.work t)))
    (tagWorker "Market_Researcher" (o.work t)) (getLast?_append_one s.messages _)
  rw [tagWorker_tool_calls] at hwr
  show (match worker_router (applyUpdate s (researcher_node (o.work t))) with
        | none => none
        | some r =>
          match researcher_edges r with
          | some n => some (applyUpdate s (researcher_node (o.work t)), some n)
          | none => none) = _
  rw [hwr]
  unfold worker_target
  cases (o.work t).tool_calls.isEmpty <;> rfl

theorem worker_target_ne_guardrail (m : Msg) :
    worker_target m ≠ Node.compliance_Guardrail := by
  unfold worker_target
  split <;> decide

theorem graphStep_tools (o : Oracle) (t : Nat) (s : AgentState) :
    graphStep o t .tools s =
      (if s.sender = "Technical_Analyst" then
        some (applyUpdate s (tool_node (o.tool t)), some Node.technical_Analyst)
      else if s.sender = "Market_Researcher" then
        some (applyUpdate s (tool_node (o.tool t)), some Node.market_Researcher)
      else none) := by
  show (match tools_edges (tool_router (applyUpdate s (tool_node (o.tool t)))) with
        | some n => some (applyUpdate s (tool_node (o.tool t)), some n)
        | none => none) = _
  have hs : tool_router (applyUpdate s (tool_node (o.tool t))) = s.sender := rfl
  rw [hs]
  unfold tools_edges
  by_cases hA : s.sender = "Technical_Analyst"
  · rw [if_pos hA, if_pos hA]
  · rw [if_neg hA, if_neg hA]
    by_cases hB : s.sender = "Market_Researcher"
    · rw [if_pos hB, if_pos hB]
    · rw [if_neg hB, if_neg hB]

theorem graphStep_guardrail (o : Oracle) (t : Nat) (s : AgentState) :
    graphStep o t .compliance_Guardrail s =
      (match compliance_node s with
       | none => none
       | some u => some (applyUpdate s u, none)) := rfl

theorem runGraph_succ (o : Oracle) (fuel t : Nat) (n : Node) (s : AgentState) :
    runGraph o (fuel + 1) t n s =
      (match graphStep o t n s with
       | none => .errored
       | some (s', none) => .finished [n] s'
       | some (s', some n') =>
         match runGraph o fuel (t + 1) n' s' with
         | .finished tr f => .finished (n :: tr) f
         | r => r) := rfl

theorem runGraph_step_err (o : Oracle) (fuel t : Nat) (n : Node) (s : AgentState)
    (hstep : graphStep o t n s = none) :
    runGraph o (fuel + 1) t n s = .errored := by
  rw [runGraph_succ, hstep]

theorem runGraph_step_end (o : Oracle) (fuel t : Nat) (n : Node) (s s' : AgentState)
    (hstep : graphStep o t n s = some (s', none)) :
    runGraph o (fuel + 1) t n s = .finished [n] s' := by
  rw [runGraph_succ, hstep]

theorem runGraph_step_cont (o : Oracle) (fuel t : Nat) (n : Node) (s s' : AgentState)
    (n' : Node) (hstep : graphStep o t n s = some (s', some n')) :
    runGraph o (fuel + 1) t n s =
      (match runGraph o fuel (t + 1) n' s' with
       | .finished tr f => .finished (n :: tr) f
       | r => r) := by
  rw [runGraph_succ, hstep]

theorem runGraph_length (o : Oracle) :
    ∀ (fuel t : Nat) (n : Node) (s : AgentState) (tr : List Node) (f : AgentState),
      runGraph o fuel t n s = .finished tr f → tr.length ≤ fuel := by
  intro fuel
  induction fuel with
  | zero =>
    intro t n s tr f h
    exact absurd h (by simp [runGraph])
  | succ fuel ih =>
    intro t n s tr f h
    cases hstep : graphStep o t n s with
    | none =>
      rw [runGraph_step_err o fuel t n s hstep] at h
      exact RunResult.noConfusion h
    | some p =>
      obtain ⟨s', tgt⟩ := p
      cases tgt with
      | none =>
        rw [runGraph_step_end o fuel t n s s' hstep] at h
        injection h with h1 h2
        rw [← h1]
        simp
      | some n' =>
        rw [runGraph_step_cont o fuel t n s s' n' hstep] at h
        cases hrec : runGraph o fuel (t + 1) n' s' with
        | finished tr' f' =>
          rw [hrec] at h
          have h' : RunResult.finished (n :: tr') f' = .finished tr f := h
          injection h' with h1 h2
          rw [← h1]
          have := ih (t + 1) n' s' tr' f' hrec
          simpa using Nat.succ_le_succ this
        | budgetExceeded =>
          rw [hrec] at h
          have h' : RunResult.budgetExceeded = RunResult.finished tr f := h
          exact RunResult.noConfusion h'
        | errored =>
          rw [hrec] at h
          have h' : RunResult.errored = RunResult.finished tr f := h
          exact RunResult.noConfusion h'

/-- The central trace invariant: a finished run visits the guardrail exactly
once, and (when started away from the guardrail) ends with a supervisor
step immediately followed by the guardrail, leaving `"FINISH"` in `next`. -/
theorem runGraph_trace (o : Oracle) :
    ∀ (fuel t : Nat) (n : Node) (s : AgentState) (tr : List Node) (f : AgentState),
      runGraph o fuel t n s = .finished tr f →
      tr.head? = some n ∧
      tr.count Node.compliance_Guardrail = 1 ∧
      (n = Node.compliance_Guardrail → tr = [n] ∧ f.next = s.next) ∧
      (n ≠ Node.compliance_Guardrail →
        (∃ tr0, tr = tr0 ++ [Node.supervisor, Node.compliance_Guardrail]) ∧
        f.next = "FINISH") := by
  intro fuel
  induction fuel with
  | zero =>
    intro t n s tr f h
    exact absurd h (by simp [runGraph])
  | succ fuel ih =>
    intro t n s tr f h
    cases n with
    | compliance_Guardrail =>
      cases hc : compliance_node s with
      | none =>
        have hstep : graphStep o t Node.compliance_Guardrail s = none := by
          rw [graphStep_guardrail, hc]
        rw [runGraph_step_err o fuel t _ s hstep] at h
        exact RunResult.noConfusion h
      | some u =>
        have hstep : graphStep o t Node.compliance_Guardrail s =
            some (applyUpdate s u, none) := by
          rw [graphStep_guardrail, hc]
        rw [runGraph_step_end o fuel t _ s _ hstep] at h
        injection h with h1 h2
        subst h1; subst h2
        refine ⟨rfl, rfl, fun _ => ⟨rfl, ?_⟩, fun hne => absurd rfl hne⟩
        have hu := compliance_node_no_route s u hc
        show (applyUpdate s u).next = s.next
        rw [show (applyUpdate s u).next = u.next.getD s.next from rfl, hu.1]
        rfl
    | supervisor =>
      rw [runGraph_step_cont o fuel t _ s _ _ (graphStep_supervisor o t s)] at h
      cases hrec : runGraph o fuel (t + 1) (supervisor_target (o.sup t))
          (applyUpdate s (supervisor_node (o.sup t))) with
      | finished tr' f' =>
        rw [hrec] at h
        have h' : RunResult.finished (Node.supervisor :: tr') f' = .finished tr f := h
        injection h' with h1 h2
        subst h1; subst h2
        have IH := ih (t + 1) (supervisor_target (o.sup t))
          (applyUpdate s (supervisor_node (o.sup t))) tr' f' hrec
        have hcount : (Node.supervisor :: tr').count Node.compliance_Guardrail = 1 := by
          rw [List.count_cons]
          simp [IH.2.1]
        refine ⟨rfl, hcount, fun hx => Node.noConfusion hx, fun _ => ?_⟩
        by_cases hG : supervisor_target (o.sup t) = Node.compliance_Guardrail
        · rw [hG] at IH
          obtain ⟨htr', hnext⟩ := IH.2.2.1 rfl
          have hdec : supervisor_decision (o.sup t) = "FINISH" :=
            supervisor_target_guardrail _ hG
          have hfin : f'.next = "FINISH" := by
            rw [hnext,
              show (applyUpdate s (supervisor_node (o.sup t))).next =
                supervisor_decision (o.sup t) from rfl, hdec]
          subst htr'
          exact ⟨⟨[], rfl⟩, hfin⟩
        · obtain ⟨⟨tr0, htr0⟩, hfin⟩ := IH.2.2.2 hG
          subst htr0
          exact ⟨⟨Node.supervisor :: tr0, rfl⟩, hfin⟩
      | budgetExceeded =>
        rw [hrec] at h
        have h' : RunResult.budgetExceeded = RunResult.finished tr f := h
        exact RunResult.noConfusion h'
      | errored =>
        rw [hrec] at h
        have h' : RunResult.errored = RunResult.finished tr f := h
        exact RunResult.noConfusion h'
    | technical_Analyst =>
      rw [runGraph_step_cont o fuel t _ s _ _ (graphStep_analyst o t s)] at h
      cases hrec : runGraph o fuel (t + 1) (worker_target (o.work t))
          (applyUpdate s (analyst_node (o.work t))) with
      | finished tr' f' =>
        rw [hrec] at h
        have h' : RunResult.finished (Node.technical_Analyst :: tr') f' = .finished tr f := h
        injection h' with h1 h2
        subst h1; subst h2
        have IH := ih (t + 1) (worker_target (o.work t))
          (applyUpdate s (analyst_node (o.work t))) tr' f' hrec
        have hcount : (Node.technical_Analyst :: tr').count Node.compliance_Guardrail = 1 := by
          rw [List.count_cons]
          simp [IH.2.1]
        refine ⟨rfl, hcount, fun hx => Node.noConfusion hx, fun _ => ?_⟩
        obtain ⟨⟨tr0, htr0⟩, hfin⟩ := IH.2.2.2 (worker_target_ne_guardrail _)
        subst htr0
        exact ⟨⟨Node.technical_Analyst :: tr0, rfl⟩, hfin⟩
      | budgetExceeded =>
        rw [hrec] at h
        have h' : RunResult.budgetExceeded = RunResult.finished tr f := h
        exact RunResult.noConfusion h'
      | errored =>
        rw [hrec] at h
        have h' : RunResult.errored = RunResult.finished tr f := h
        exact RunResult.noConfusion h'
    | market_Researcher =>
      rw [runGraph_step_cont o fuel t _ s _ _ (graphStep_researcher o t s)] at h
      cases hrec : runGraph o fuel (t + 1) (worker_target (o.work t))
          (applyUpdate s (researcher_node (o.work t))) with
      | finished tr' f' =>
        rw [hrec] at h
        have h' : RunResult.finished (Node.market_Researcher :: tr') f' = .finished tr f := h
        injection h' with h1 h2
        subst h1; subst h2
        have IH := ih (t + 1) (worker_target (o.work t))
          (applyUpdate s (researcher_node (o.work t))) tr' f' hrec
        have hcount : (Node.market_Researcher :: tr').count Node.compliance_Guardrail = 1 := by
          rw [List.count_cons]
          simp [IH.2.1]
        refine ⟨rfl, hcount, fun hx => Node.noConfusion hx, fun _ => ?_⟩
        obtain ⟨⟨tr0, htr0⟩, hfin⟩ := IH.2.2.2 (worker_target_ne_guardrail _)
        subst htr0
        exact ⟨⟨Node.market_Researcher :: tr0, rfl⟩, hfin⟩
      | budgetExceeded =>
        rw [hrec] at h
        have h' : RunResult.budgetExceeded = RunResult.finished tr f := h
        exact RunResult.noConfusion h'
      | errored =>
        rw [hrec] at h
        have h' : RunResult.errored = RunResult.finished tr f := h
        exact RunResult.noConfusion h'
    | tools =>
      by_cases hA : s.sender = "Technical_Analyst"
      · have hstep : graphStep o t Node.tools s =
            some (applyUpdate s (tool_node (o.tool t)), some Node.technical_Analyst) := by
          rw [graphStep_tools, if_pos hA]
        rw [runGraph_step_cont o fuel t _ s _ _ hstep] at h
        cases hrec : runGraph o fuel (t + 1) Node.technical_Analyst
            (applyUpdate s (tool_node (o.tool t))) with
        | finished tr' f' =>
          rw [hrec] at h
          have h' : RunResult.finished (Node.tools :: tr') f' = .finished tr f := h
          injection h' with h1 h2
          subst h1; subst h2
          have IH := ih (t + 1) Node.technical_Analyst
            (applyUpdate s (tool_node (o.tool t))) tr' f' hrec
          have hcount : (Node.tools :: tr').count Node.compliance_Guardrail = 1 := by
            rw [List.count_cons]
            simp [IH.2.1]
          refine ⟨rfl, hcount, fun hx => Node.noConfusion hx, fun _ => ?_⟩
          obtain ⟨⟨tr0, htr0⟩, hfin⟩ := IH.2.2.2 (by decide)
          subst htr0
          exact ⟨⟨Node.tools :: tr0, rfl⟩, hfin⟩
        | budgetExceeded =>
          rw [hrec] at h
          have h' : RunResult.budgetExceeded = RunResult.finished tr f := h
          exact RunResult.noConfusion h'
        | errored =>
          rw [hrec] at h
          have h' : RunResult.errored = RunResult.finished tr f := h
          exact RunResult.noConfusion h'
      · by_cases hB : s.sender = "Market_Researcher"
        · have hstep : graphStep o t Node.tools s =
              some (applyUpdate s (tool_node (o.tool t)), some Node.market_Researcher) := by
            rw [graphStep_tools, if_neg hA, if_pos hB]
          rw [runGraph_step_cont o fuel t _ s _ _ hstep] at h
          cases hrec : runGraph o fuel (t + 1) Node.market_Researcher
              (applyUpdate s (tool_node (o.tool t))) with
          | finished tr' f' =>
            rw [hrec] at h
            have h' : RunResult.finished (Node.tools :: tr') f' = .finished tr f := h
            injection h' with h1 h2
            subst h1; subst h2
            have IH := ih (t + 1) Node.market_Researcher
              (applyUpdate s (tool_node (o.tool t))) tr' f' hrec
            have hcount : (Node.tools :: tr').count Node.compliance_Guardrail = 1 := by
              rw [List.count_cons]
              simp [IH.2.1]
            refine ⟨rfl, hcount, fun hx => Node.noConfusion hx, fun _ => ?_⟩
            obtain ⟨⟨tr0, htr0⟩, hfin⟩ := IH.2.2.2 (by decide)
            subst htr0
            exact ⟨⟨Node.tools :: tr0, rfl⟩, hfin⟩
          | budgetExceeded =>
            rw [hrec] at h
            have h' : RunResult.budgetExceeded = RunResult.finished tr f := h
            exact RunResult.noConfusion h'
          | errored =>
            rw [hrec] at h
            have h' : RunResult.errored = RunResult.finished tr f := h
            exact RunResult.noConfusion h'
        · have hstep : graphStep o t Node.tools s = none := by
            rw [graphStep_tools, if_neg hA, if_neg hB]
          rw [runGraph_step_err o fuel t _ s hstep] at h
          exact RunResult.noConfusion h

/- ### Claim theorems -/

/-- C1: if the supervisor's model invocation raises, or returns an empty or
missing decision, `supervisor_node` routes `"FINISH"`; it never raises and
every decision it can produce is mapped by the conditional-edge dict; under
`"FINISH"` the next node is the compliance guardrail, whose only outgoing
edge is `END`. -/
theorem supervisor_fail_safe_to_finish :
    supervisor_decision .raised = "FINISH" ∧
    supervisor_decision .returnedNone = "FINISH" ∧
    supervisor_decision .emptyNext = "FINISH" ∧
    (∀ oc : ChainOutcome, (supervisor_edges (supervisor_decision oc)).isSome = true) ∧
    supervisor_edges "FINISH" = some Node.compliance_Guardrail ∧
    compliance_guardrail_edge = none ∧
    (∀ (o : Oracle) (t : Nat) (s : AgentState),
      o.sup t ≠ ChainOutcome.ok .technical_Analyst →
      o.sup t ≠ ChainOutcome.ok .market_Researcher →
      graphStep o t Node.supervisor s =
        some (applyUpdate s (supervisor_node (o.sup t)), some Node.compliance_Guardrail)) := by
  refine ⟨rfl, rfl, rfl, ?_, rfl, rfl, ?_⟩
  · intro oc
    rcases supervisor_decision_cases oc with h | h | h <;> rw [h] <;> rfl
  · intro o t s hA hB
    have hdec : supervisor_decision (o.sup t) = "FINISH" := by
      cases hoc : o.sup t with
      | ok r =>
        cases r with
        | technical_Analyst => exact absurd hoc hA
        | market_Researcher => exact absurd hoc hB
        | finish => rfl
      | raised => rfl
      | returnedNone => rfl
      | emptyNext => rfl
    show (match supervisor_edges (router (applyUpdate s (supervisor_node (o.sup t)))) with
          | some n => some (applyUpdate s (supervisor_node (o.sup t)), some n)
          | none => none) =
        some (applyUpdate s (supervisor_node (o.sup t)), some Node.compliance_Guardrail)
    have hr : router (applyUpdate s (supervisor_node (o.sup t))) = "FINISH" := by
      simp [router, applyUpdate, supervisor_node, hdec]
    rw [hr]
    rfl

/-- C1 witness: at a concretely raising supervisor oracle the step from the
supervisor goes to the compliance guardrail. -/
theorem supervisor_fail_safe_to_finish_witness :
    graphStep oracleRaise 0 Node.supervisor stateHello =
      some (applyUpdate stateHello (supervisor_node ChainOutcome.raised),
            some Node.compliance_Guardrail) :=
  supervisor_fail_safe_to_finish.2.2.2.2.2.2 oracleRaise 0 stateHello
    (by decide) (by decide)

/-- C2: on a state whose last message is an AI message with non-empty
content containing a risk term (case-insensitive substring), the guardrail
emits exactly one new message, the original content with the disclaimer
appended once; in every other case it emits no message and merging the
update leaves the state unchanged. -/
theorem compliance_guardrail_contract (ms : List Msg) (m : Msg) (nx sd : String) :
    (m.role = Role.ai → m.content ≠ "" →
      risk_terms.any (fun term => pyContains (pyLower m.content) term) = true →
      compliance_node ⟨ms ++ [m], nx, sd⟩ =
        some ⟨[⟨Role.ai, m.content ++ disclaimer, none, []⟩], none, none⟩) ∧
    ((m.role ≠ Role.ai ∨ m.content = "" ∨
      risk_terms.any (fun term => pyContains (pyLower m.content) term) = false) →
      compliance_node ⟨ms ++ [m], nx, sd⟩ = some ⟨[], none, none⟩ ∧
      applyUpdate ⟨ms ++ [m], nx, sd⟩ ⟨[], none, none⟩ = ⟨ms ++ [m], nx, sd⟩) := by
  have heq := compliance_node_eq ⟨ms ++ [m], nx, sd⟩ m (getLast?_append_one ms m)
  constructor
  · intro h1 h2 h3
    rw [heq, if_pos ⟨h1, h2⟩, if_pos h3]
  · intro h
    constructor
    · rw [heq]
      by_cases hc : m.role = Role.ai ∧ m.content ≠ ""
      · rw [if_pos hc]
        have hrisk : risk_terms.any (fun term => pyContains (pyLower m.content) term) = false := by
          rcases h with h | h | h
          · exact absurd hc.1 h
          · exact absurd h hc.2
          · exact h
        rw [hrisk]
        simp
      · rw [if_neg hc]
    · simp [applyUpdate]

/-- C2 witness: a risky AI answer gets the disclaimer appended; a riskless
one leaves the state unchanged. -/
theorem compliance_guardrail_contract_witness :
    compliance_node ⟨[⟨Role.ai, "You should buy JKH", none, []⟩], "FINISH", ""⟩ =
      some ⟨[⟨Role.ai, "You should buy JKH" ++ disclaimer, none, []⟩], none, none⟩ ∧
    compliance_node ⟨[⟨Role.ai, "JKH trades at 22 LKR", none, []⟩], "FINISH", ""⟩ =
      some ⟨[], none, none⟩ :=
  ⟨(compliance_guardrail_contract [] ⟨Role.ai, "You should buy JKH", none, []⟩
      "FINISH" "").1 rfl (by decide) (by decide),
   ((compliance_guardrail_contract [] ⟨Role.ai, "JKH trades at 22 LKR", none, []⟩
      "FINISH" "").2 (Or.inr (Or.inr (by decide)))).1⟩

/-- C3: after either worker acts (and the tools node appends any tool
results), the tool router returns that worker's identity and the tools
conditional-edge dict routes back to the very same worker. -/
theorem tool_results_return_to_sender (s : AgentState) (result : Msg) (tms : List Msg) :
    tool_router (applyUpdate (applyUpdate s (analyst_node result)) (tool_node tms)) =
      "Technical_Analyst" ∧
    tools_edges (tool_router (applyUpdate (applyUpdate s (analyst_node result)) (tool_node tms))) =
      some Node.technical_Analyst ∧
    tool_router (applyUpdate (applyUpdate s (researcher_node result)) (tool_node tms)) =
      "Market_Researcher" ∧
    tools_edges (tool_router (applyUpdate (applyUpdate s (researcher_node result)) (tool_node tms))) =
      some Node.market_Researcher := by
  refine ⟨rfl, rfl, rfl, rfl⟩

/-- C4: after a worker node runs, the routing string is `"tools"` exactly
when the produced message carries at least one tool call and `"Supervisor"`
otherwise, identically for both workers, and both workers' conditional-edge
dicts agree and map those strings to the tools node and the supervisor. -/
theorem worker_routing_contract (s : AgentState) (result : Msg) :
    worker_router (applyUpdate s (analyst_node result)) =
      some (if result.tool_calls.isEmpty then "Supervisor" else "tools") ∧
    worker_router (applyUpdate s (researcher_node result)) =
      some (if result.tool_calls.isEmpty then "Supervisor" else "tools") ∧
    (∀ d : String, analyst_edges d = researcher_edges d) ∧
    analyst_edges "tools" = some Node.tools ∧
    analyst_edges "Supervisor" = some Node.supervisor := by
  have hA : worker_router (applyUpdate s (analyst_node result)) =
      some (if result.tool_calls.isEmpty then "Supervisor" else "tools") := by
    rw [worker_router_eq (applyUpdate s (analyst_node result))
      (tagWorker "Technical_Analyst" result) (getLast?_append_one s.messages _),
      tagWorker_tool_calls]
    cases h : result.tool_calls.isEmpty <;> simp [h]
  have hB : worker_router (applyUpdate s (researcher_node result)) =
      some (if result.tool_calls.isEmpty then "Supervisor" else "tools") := by
    rw [worker_router_eq (applyUpdate s (researcher_node result))
      (tagWorker "Market_Researcher" result) (getLast?_append_one s.messages _),
      tagWorker_tool_calls]
    cases h : result.tool_calls.isEmpty <;> simp [h]
  exact ⟨hA, hB, fun d => rfl, rfl, rfl⟩

/-- C8: every decision a supervisor invocation can store in `next` is in
the closed set of the three routing strings, and the supervisor's
conditional-edge dict is total over all of them. -/
theorem supervisor_decisions_closed (oc : ChainOutcome) :
    (supervisor_decision oc = "Technical_Analyst" ∨
     supervisor_decision oc = "Market_Researcher" ∨
     supervisor_decision oc = "FINISH") ∧
    (supervisor_edges (supervisor_decision oc)).isSome = true := by
  refine ⟨supervisor_decision_cases oc, ?_⟩
  rcases supervisor_decision_cases oc with h | h | h <;> rw [h] <;> rfl

/-- C9: the import in `src/agent.py` line 13 does not resolve — the worker
tool names `web_search` and `get_technical_indicators` are not defined by
`src/cse_tools.py` (whose search capability is named `search_market_news`),
so the module import fails. -/
theorem agent_tool_imports_unresolved :
    agent_imports_resolve = false ∧
    "web_search" ∈ agent_imported_names ∧
    "web_search" ∈ researcher_tool_names ∧
    "get_technical_indicators" ∈ analyst_tool_names ∧
    ("web_search" ∈ cse_tools_defined_names) = False ∧
    ("get_technical_indicators" ∈ cse_tools_defined_names) = False ∧
    "search_market_news" ∈ cse_tools_defined_names ∧
    "get_cse_stock_price" ∈ cse_tools_defined_names := by
  refine ⟨rfl, ?_, ?_, ?_, ?_, ?_, ?_, ?_⟩ <;> simp [agent_imported_names,
    researcher_tool_names, analyst_tool_names, cse_tools_defined_names]

/-- C6: with the configured recursion limit of 50, every finished turn takes
at most 50 node transitions; exhausting the budget is a distinct fatal
outcome which the front end surfaces as an error box, never as rendered
answer content. -/
theorem graph_budget_bounded :
    (∀ (o : Oracle) (s : AgentState) (tr : List Node) (f : AgentState),
      runGraph o recursion_limit 0 start_edge s = .finished tr f →
      tr.length ≤ 50) ∧
    recursion_limit = 50 ∧
    appRender RunResult.budgetExceeded =
      Display.errorBox "Agent Logic Error: GraphRecursionError" ∧
    (∀ c : String, appRender RunResult.budgetExceeded ≠ Display.rendered c) := by
  refine ⟨?_, rfl, rfl, ?_⟩
  · intro o s tr f h
    exact runGraph_length o recursion_limit 0 start_edge s tr f h
  · intro c hc
    exact Display.noConfusion hc

/-- C6 witness: a concrete turn whose supervisor immediately finishes runs
within the budget. -/
theorem graph_budget_bounded_witness :
    runGraph oracleFinish recursion_limit 0 start_edge stateHello =
      RunResult.finished [Node.supervisor, Node.compliance_Guardrail]
        ⟨[msgHello], "FINISH", ""⟩ ∧
    ([Node.supervisor, Node.compliance_Guardrail] : List Node).length ≤ 50 :=
  ⟨rfl, graph_budget_bounded.1 oracleFinish stateHello _ _ rfl⟩

/-- C7: in every completed turn the compliance guardrail executes exactly
once, as the last node before END, immediately after a supervisor step that
left the FINISH decision in the state; the first node of the turn is the
supervisor, entered unconditionally from START. -/
theorem turn_control_flow (o : Oracle) (fuel : Nat) (s : AgentState)
    (tr : List Node) (f : AgentState)
    (h : runGraph o fuel 0 start_edge s = .finished tr f) :
    tr.head? = some Node.supervisor ∧
    tr.count Node.compliance_Guardrail = 1 ∧
    (∃ tr0, tr = tr0 ++ [Node.supervisor, Node.compliance_Guardrail]) ∧
    f.next = "FINISH" := by
  have H := runGraph_trace o fuel 0 start_edge s tr f h
  have hne : start_edge ≠ Node.compliance_Guardrail := by decide
  exact ⟨H.1, H.2.1, (H.2.2.2 hne).1, (H.2.2.2 hne).2⟩

/-- C7 witness: the concrete immediately-finishing turn has the stated
shape. -/
theorem turn_control_flow_witness :
    ([Node.supervisor, Node.compliance_Guardrail] : List Node).head? =
      some Node.supervisor ∧
    ([Node.supervisor, Node.compliance_Guardrail] : List Node).count
      Node.compliance_Guardrail = 1 ∧
    (∃ tr0, ([Node.supervisor, Node.compliance_Guardrail] : List Node) =
      tr0 ++ [Node.supervisor, Node.compliance_Guardrail]) ∧
    (AgentState.mk [msgHello] "FINISH" "").next = "FINISH" :=
  turn_control_flow oracleFinish recursion_limit stateHello
    [Node.supervisor, Node.compliance_Guardrail] ⟨[msgHello], "FINISH", ""⟩ rfl

/- ### cse_tools helper lemmas -/

set_option maxRecDepth 1000000

theorem pickBest_mem (w : List Char) :
    ∀ (l : List String) (best : Option String) (m : String),
      pickBest w l best = some m → m ∈ l ∨ best = some m := by
  intro l
  induction l with
  | nil => intro best m h; exact Or.inr h
  | cons x rest ih =>
    intro best m h
    cases best with
    | none =>
      have h' : pickBest w rest (some x) = some m := h
      rcases ih (some x) m h' with h1 | h1
      · exact Or.inl (List.mem_cons_of_mem x h1)
      · injection h1 with h1
        exact Or.inl (h1 ▸ List.mem_cons_self x rest)
    | some b =>
      have h' : pickBest w rest (if candBeats w x b then some x else some b) = some m := h
      rcases ih _ m h' with h1 | h1
      · exact Or.inl (List.mem_cons_of_mem x h1)
      · by_cases hc : candBeats w x b = true
        · rw [if_pos hc] at h1
          injection h1 with h1
          exact Or.inl (h1 ▸ List.mem_cons_self x rest)
        · rw [if_neg hc] at h1
          exact Or.inr h1

theorem get_close_matches1_mem (word : String) (poss : List String) (m : String)
    (h : get_close_matches1 word poss = some m) : m ∈ poss := by
  unfold get_close_matches1 at h
  rcases pickBest_mem word.data _ none m h with h1 | h1
  · exact (List.mem_filter.mp h1).1
  · exact Option.noConfusion h1

theorem mapLookup_isSome_of_mem (l : List (String × String)) (k : String)
    (h : k ∈ l.map Prod.fst) : (mapLookup l k).isSome = true := by
  induction l with
  | nil => simp at h
  | cons p ps ih =>
    unfold mapLookup
    by_cases hk : p.1 == k
    · rw [if_pos hk]; rfl
    · rw [if_neg hk]
      apply ih
      simp only [List.map_cons, List.mem_cons] at h
      rcases h with h | h
      · exact absurd (beq_iff_eq.mpr h.symm) hk
      · exact h

/-- Totality of `resolve_ticker`: the dict access after a fuzzy match can never
raise, because `get_close_matches` only returns members of the key list. -/
theorem resolve_ticker_isSome (user_input : String) :
    (resolve_ticker user_input).isSome = true := by
  show (Option.isSome (
    match mapLookup CSE_TICKER_MAP (pyStrip (pyLower user_input)) with
    | some t => some t
    | none =>
      match get_close_matches1 (pyStrip (pyLower user_input))
          (CSE_TICKER_MAP.map Prod.fst) with
      | some m => mapLookup CSE_TICKER_MAP m
      | none => some (pyUpper user_input))) = true
  cases hl : mapLookup CSE_TICKER_MAP (pyStrip (pyLower user_input)) with
  | some t => rfl
  | none =>
    cases hm : get_close_matches1 (pyStrip (pyLower user_input))
        (CSE_TICKER_MAP.map Prod.fst) with
    | none => rfl
    | some m =>
      exact mapLookup_isSome_of_mem _ m (get_close_matches1_mem _ _ m hm)

theorem cse_query_symbol_isSome (ticker : String) :
    (cse_query_symbol ticker).isSome = true := by
  unfold cse_query_symbol
  rw [Option.isSome_map']
  exact resolve_ticker_isSome ticker

theorem upper_suffix_fixed : ".N0000".data.map Char.toUpper = ".N0000".data := by decide

theorem string_data_append (a b : String) : (a ++ b).data = a.data ++ b.data := by
  cases a; cases b; rfl

theorem pyEndsWith_append_suffix (u : List Char) :
    pyEndsWith ⟨u ++ ".N0000".data⟩ ".N0000" = true := by
  show (decide (".N0000".data.length ≤ (u ++ ".N0000".data).length) &&
        ((u ++ ".N0000".data).drop
          ((u ++ ".N0000".data).length - ".N0000".data.length) == ".N0000".data)) = true
  rw [List.length_append, Nat.add_sub_cancel, List.drop_left]
  simp

theorem pyUpper_append_suffix (c : String) :
    pyUpper (c ++ ".N0000") = ⟨c.data.map Char.toUpper ++ ".N0000".data⟩ := by
  show (⟨(c ++ ".N0000").data.map Char.toUpper⟩ : String) = _
  rw [string_data_append, List.map_append, upper_suffix_fixed]

theorem pyEndsWith_upper (c : String) (h : pyEndsWith c ".N0000" = true) :
    pyEndsWith (pyUpper c) ".N0000" = true := by
  have h' : (decide (".N0000".data.length ≤ c.data.length) &&
      (c.data.drop (c.data.length - ".N0000".data.length) == ".N0000".data)) = true := h
  rw [Bool.and_eq_true] at h'
  obtain ⟨h1, h2⟩ := h'
  have h1' : ".N0000".data.length ≤ c.data.length := of_decide_eq_true h1
  have h2' : c.data.drop (c.data.length - ".N0000".data.length) = ".N0000".data :=
    eq_of_beq h2
  show (decide (".N0000".data.length ≤ (c.data.map Char.toUpper).length) &&
        ((c.data.map Char.toUpper).drop
          ((c.data.map Char.toUpper).length - ".N0000".data.length) == ".N0000".data)) = true
  rw [List.length_map, ← List.map_drop, h2', upper_suffix_fixed]
  simp
  simpa using h1'

/-- C5 counterexample: when the HTTP request raises, the market-data
capability does not return an error-describing string — it returns the
mock-data dict. -/
theorem capability_error_not_string_counterexample :
    get_cse_stock_price "JKH" HttpResult.raised =
      some (CapResult.mockData "JKH" "LKR" "Mock Data (Fallback)") ∧
    CapResult.isText (CapResult.mockData "JKH" "LKR" "Mock Data (Fallback)") = false := by
  exact ⟨by decide, rfl⟩

/-- C5 (amended): both capabilities catch every exception of their try
blocks and never propagate it; the news search converts failures to the
fixed error string (and always returns a string), while the market-data
fetch converts failures to the mock-data dict rather than a string. -/
theorem capability_failures_absorbed :
    (∀ (ticker : String) (h : HttpResult),
      (get_cse_stock_price ticker h).isSome = true) ∧
    (∀ (ticker sym : String) (h : HttpResult) (e : String),
      cse_query_symbol ticker = some sym →
      stock_price_try_body sym h = .error e →
      get_cse_stock_price ticker h = some (generate_mock_data ticker)) ∧
    (∀ query : String, search_market_news query .raised =
      .text "News search failed. Please verify API Key.") ∧
    (∀ (query : String) (o : TavilyOutcome),
      (search_market_news query o).isText = true) := by
  refine ⟨?_, ?_, fun query => rfl, ?_⟩
  · intro ticker h
    cases hq : cse_query_symbol ticker with
    | none => exact absurd (cse_query_symbol_isSome ticker) (by rw [hq]; decide)
    | some sym =>
      have hg : get_cse_stock_price ticker h =
          some (match stock_price_try_body sym h with
                | .ok v => v
                | .error _ => generate_mock_data ticker) := by
        unfold get_cse_stock_price
        rw [hq]
      rw [hg]
      rfl
  · intro ticker sym h e hq hbody
    have hg : get_cse_stock_price ticker h =
        some (match stock_price_try_body sym h with
              | .ok v => v
              | .error _ => generate_mock_data ticker) := by
      unfold get_cse_stock_price
      rw [hq]
    rw [hg, hbody]
  · intro query o
    cases o with
    | raised => rfl
    | results rs =>
      show CapResult.isText
        (if rs.isEmpty then CapResult.text "No news found via Tavily."
         else CapResult.text (String.intercalate "\n"
           (rs.map (fun result => "- " ++ result.1 ++ ": " ++ result.2)))) = true
      split <;> rfl

/-- C5 witness: a concretely raising quote request yields the mock dict. -/
theorem capability_failures_absorbed_witness :
    get_cse_stock_price "JKH" HttpResult.raised = some (generate_mock_data "JKH") :=
  capability_failures_absorbed.2.1 "JKH" "JKH.N0000" HttpResult.raised
    "request raised" (by decide) rfl

/-- C10 counterexample: symbol normalization is not idempotent —
`resolve_ticker "softlogic" = "SHL"` but re-resolving `"SHL"` fuzzy-matches
the key `"slt"` and yields `"SLTL"`; and for an input that already carries a
doubled board suffix the queried symbol does end in `".N0000.N0000"`. -/
theorem ticker_normalization_counterexample :
    resolve_ticker "softlogic" = some "SHL" ∧
    resolve_ticker "SHL" = some "SLTL" ∧
    (resolve_ticker "softlogic").bind resolve_ticker ≠ resolve_ticker "softlogic" ∧
    cse_query_symbol "jkh.n0000.n0000" = some "JKH.N0000.N0000" ∧
    pyEndsWith "JKH.N0000.N0000" ".N0000.N0000" = true := by
  refine ⟨by decide, by decide, by decide, by decide, by decide⟩

/-- C10 (amended): `resolve_ticker` is total (exact lookup, then fuzzy
match at cutoff 0.6, else the uppercased input; the dict access never
raises), and `get_cse_stock_price` appends the `".N0000"` suffix at most
once — exactly when the resolved ticker lacks it — so the queried symbol
always ends with `".N0000"`; but the normalization is not idempotent, and a
doubled suffix survives when the input itself already carries one. -/
theorem ticker_normalization_amended :
    (∀ input : String, (resolve_ticker input).isSome = true) ∧
    (∀ input sym : String, cse_query_symbol input = some sym →
      pyEndsWith sym ".N0000" = true) ∧
    (∀ input c : String, resolve_ticker input = some c →
      pyEndsWith c ".N0000" = false →
      cse_query_symbol input = some (pyUpper (c ++ ".N0000"))) ∧
    (∀ input c : String, resolve_ticker input = some c →
      pyEndsWith c ".N0000" = true →
      cse_query_symbol input = some (pyUpper c)) := by
  refine ⟨resolve_ticker_isSome, ?_, ?_, ?_⟩
  · intro input sym h
    unfold cse_query_symbol at h
    rw [Option.map_eq_some'] at h
    obtain ⟨c, hc, hf⟩ := h
    rw [← hf]
    by_cases hb : pyEndsWith c ".N0000" = true
    · rw [if_pos hb]
      exact pyEndsWith_upper c hb
    · rw [if_neg hb]
      rw [pyUpper_append_suffix c]
      exact pyEndsWith_append_suffix _
  · intro input c hres hb
    unfold cse_query_symbol
    rw [hres]
    show some (pyUpper (if pyEndsWith c ".N0000" then c else c ++ ".N0000")) = _
    rw [hb]
    rfl
  · intro input c hres hb
    unfold cse_query_symbol
    rw [hres]
    show some (pyUpper (if pyEndsWith c ".N0000" then c else c ++ ".N0000")) = _
    rw [hb]
    rfl

/-- C10 witness: resolving `"jkh"` gives the bare ticker and the suffix is
appended exactly once. -/
theorem ticker_normalization_amended_witness :
    cse_query_symbol "jkh" = some (pyUpper ("JKH" ++ ".N0000")) :=
  ticker_normalization_amended.2.2.1 "jkh" "JKH" (by decide) (by decide)
